import Mathlib

/-
Shallow embedding of `src/js/collections.js` (wp.api.WPApiBaseCollection,
a Backbone.Collection extension providing pagination bookkeeping, a
forward-pagination helper, and sort-on-change behaviour).

Modelling conventions:
* JavaScript values occurring in this code are restricted to the universe
  `JVal` (null, integer numbers, NaN, strings, booleans); `undefined` is
  represented by absence, i.e. by `Option.none` of a lookup.
* JavaScript plain objects used as query-parameter maps are association
  lists `JObj` with first-occurrence lookup; `_.clone` + `delete`,
  `_.extend` and property reads are embedded as `JObj.erase`, `JObj.extend`
  and `JObj.get`.
* JavaScript numbers appearing in the pagination state are `JNum`
  (an integer or NaN); arithmetic propagates NaN as in JS.
* The nonce/`beforeSend` header injection in `sync` (lines 56-64) touches
  no pagination state and no claim refers to it, so it is not embedded.
* The wrapped success callback assigned to `options.success`
  (lines 86-99) reads and writes the collection state current at the time
  the response arrives; it is embedded as the pure step `successUpdate`
  (state transition) and `wrappedSuccess` (transition plus invocation of
  the captured original callback on the unchanged arguments).
-/

namespace WPApiCollection

/-- JavaScript primitive values used by the collection code. -/
inductive JVal where
  | vnull : JVal
  | vnum : Int → JVal
  | vnan : JVal
  | vstr : String → JVal
  | vbool : Bool → JVal
  deriving DecidableEq, Repr

/-- A JavaScript number restricted to the integers plus NaN. -/
inductive JNum where
  | nan : JNum
  | int : Int → JNum
  deriving DecidableEq, Repr

/-- JS addition on numbers: NaN is absorbing. -/
def JNum.add : JNum → JNum → JNum
  | JNum.int a, JNum.int b => JNum.int (a + b)
  | _, _ => JNum.nan

/-- JS subtraction on numbers: NaN is absorbing. -/
def JNum.sub : JNum → JNum → JNum
  | JNum.int a, JNum.int b => JNum.int (a - b)
  | _, _ => JNum.nan

/-- JS unary minus on numbers. -/
def JNum.neg : JNum → JNum
  | JNum.int a => JNum.int (-a)
  | JNum.nan => JNum.nan

/-- JS `<` on numbers: any comparison involving NaN is false. -/
def JNum.ltb : JNum → JNum → Bool
  | JNum.int a, JNum.int b => a < b
  | _, _ => false

/-- JS `<=` on numbers: any comparison involving NaN is false. -/
def JNum.leb : JNum → JNum → Bool
  | JNum.int a, JNum.int b => a ≤ b
  | _, _ => false

/-- Inject a number back into the value universe. -/
def JNum.toJVal : JNum → JVal
  | JNum.int a => JVal.vnum a
  | JNum.nan => JVal.vnan

/-- JS truthiness on the embedded value universe. -/
def JVal.truthy : JVal → Bool
  | JVal.vnull => false
  | JVal.vnan => false
  | JVal.vnum n => n ≠ 0
  | JVal.vstr s => s ≠ ""
  | JVal.vbool b => b

/-- JS strict equality `===` on the embedded value universe
(`NaN === NaN` is false, values of different types are never equal). -/
def JVal.strictEq : JVal → JVal → Bool
  | JVal.vnan, _ => false
  | _, JVal.vnan => false
  | JVal.vnull, JVal.vnull => true
  | JVal.vnum a, JVal.vnum b => a = b
  | JVal.vstr a, JVal.vstr b => a = b
  | JVal.vbool a, JVal.vbool b => a = b
  | _, _ => false

/-- JS `<` on same-type primitive values (the "natural ordering" the
comparator relies on); comparisons involving NaN or null, and mixed-type
comparisons outside this code's use, are false. -/
def JVal.jsLtb : JVal → JVal → Bool
  | JVal.vnum a, JVal.vnum b => a < b
  | JVal.vstr a, JVal.vstr b => a < b
  | JVal.vbool a, JVal.vbool b => !a && b
  | _, _ => false

/-- `v.valueOf()`: the identity on primitives, a thrown `TypeError`
on null (embedded as `Except.error`). -/
def JVal.valueOf : JVal → Except String JVal
  | JVal.vnull => Except.error "TypeError: null has no valueOf"
  | v => Except.ok v

/-- Coercion of a value to a JS property key (string). -/
def JVal.toPropKey : JVal → String
  | JVal.vstr s => s
  | JVal.vnum n => toString n
  | JVal.vnan => "NaN"
  | JVal.vnull => "null"
  | JVal.vbool b => if b then "true" else "false"

/-- The value of a list of decimal digit characters. -/
def digitsToNat (cs : List Char) : Nat :=
  cs.foldl (fun a c => a * 10 + (c.toNat - 48)) 0

/-- JS `ToNumber` on a string (restricted to optionally signed decimal
integer literals, the only strings this code converts): the empty/blank
string is 0, a signed digit string is its value, everything else NaN. -/
def strToNumber (s : String) : JNum :=
  let core : List Char → JNum := fun cs =>
    if cs ≠ [] ∧ cs.all Char.isDigit then JNum.int (digitsToNat cs) else JNum.nan
  match s.trim.toList with
  | [] => JNum.int 0
  | '-' :: cs => (core cs).neg
  | '+' :: cs => core cs
  | cs => core cs

/-- JS `ToNumber` on the embedded value universe. -/
def jsToNumber : JVal → JNum
  | JVal.vnull => JNum.int 0
  | JVal.vnan => JNum.nan
  | JVal.vnum n => JNum.int n
  | JVal.vbool b => JNum.int (if b then 1 else 0)
  | JVal.vstr s => strToNumber s

/-- `parseInt(s, 10)`: skip leading whitespace, an optional sign, then the
longest run of decimal digits; NaN when that run is empty. -/
def parseInt10 (s : String) : JNum :=
  let core : List Char → JNum := fun cs =>
    let ds := cs.takeWhile Char.isDigit
    if ds.isEmpty then JNum.nan else JNum.int (digitsToNat ds)
  match s.toList.dropWhile Char.isWhitespace with
  | '-' :: cs => (core cs).neg
  | '+' :: cs => core cs
  | cs => core cs

/-- `parseInt(getResponseHeader(...), 10)`: an absent header (null) parses
to NaN, as `parseInt(null, 10)` does. -/
def parseIntHeader : Option String → JNum
  | none => JNum.nan
  | some s => parseInt10 s

/-- A JS plain object used as a string-keyed map (query parameters,
model attributes). Lookup takes the first occurrence of a key. -/
abbrev JObj : Type := List (String × JVal)

/-- The empty object `{}`. -/
def JObj.empty : JObj := ([] : List (String × JVal))

/-- Property read: `o[k]`, `undefined` (none) when absent. -/
def JObj.get : JObj → String → Option JVal
  | [], _ => none
  | (k', v) :: rest, k => if k' = k then some v else JObj.get rest k

/-- `delete o[k]` (on a fresh clone): remove the key. -/
def JObj.erase : JObj → String → JObj
  | [], _ => ([] : List (String × JVal))
  | (k', v) :: rest, k =>
    if k' = k then JObj.erase rest k else (k', v) :: JObj.erase rest k

/-- Property write `o[k] = v`: overwrite in place or append. -/
def JObj.set : JObj → String → JVal → JObj
  | [], k, v => [(k, v)]
  | (k', v') :: rest, k, v =>
    if k' = k then (k, v) :: rest else (k', v') :: JObj.set rest k v

/-- `_.extend(dst, src)`: copy every property of `src` into `dst`,
overwriting existing keys. -/
def JObj.extend (dst src : JObj) : JObj :=
  src.foldl (fun acc p => JObj.set acc p.1 p.2) dst

/-- Truthiness of a property read (`undefined` is falsy). -/
def JObj.truthyGet (o : JObj) (k : String) : Bool :=
  (JObj.get o k).elim false JVal.truthy

/-- An HTTP response as seen through `request.getResponseHeader`. -/
structure Response where
  headers : List (String × String)
  deriving DecidableEq, Repr

/-- `request.getResponseHeader(name)`: null (none) when absent. -/
def Response.getResponseHeader (r : Response) (name : String) : Option String :=
  (r.headers.find? (fun p => p.1 = name)).map Prod.snd

/-- A Backbone model, reduced to its attribute map (`model.get(k)`). -/
structure Model where
  attrs : JObj
  deriving DecidableEq, Repr

/-- `model.get(k)`. -/
def Model.get (m : Model) (k : String) : Option JVal :=
  JObj.get m.attrs k

/-- `this.state` of the collection (lines 21-26). -/
structure PagState where
  data : JObj
  currentPage : Option JNum
  totalPages : Option JNum
  totalObjects : Option JNum
  deriving DecidableEq, Repr

/-- The observable state of a collection instance: the pagination state,
the `parent` field, the `_initializedSortOnChange` flag (absent = false),
whether a comparator is installed, and effect counters for the
`on('sync change', ...)` subscriptions made and the `sort()` calls
performed by `_initSortOnChange`. -/
structure Collection where
  state : PagState
  parent : Option JVal
  initializedSortOnChange : Bool
  hasComparator : Bool
  subscriptions : Nat
  sortsDone : Nat
  deriving DecidableEq, Repr

/-- `_initSortOnChange` (lines 112-128): returns the updated collection
and the boolean result. When already initialized or `state.data.orderby`
is falsy it does nothing and returns false; otherwise it installs the
default comparator if none is present, subscribes one `'sync change'`
handler, sorts once, sets the flag and returns true. -/
def initSortOnChange (c : Collection) : Collection × Bool :=
  if c.initializedSortOnChange || !(JObj.truthyGet c.state.data "orderby") then
    (c, false)
  else
    let c1 := if c.hasComparator then c else { c with hasComparator := true }
    ({ c1 with
        subscriptions := c1.subscriptions + 1
        sortsDone := c1.sortsDone + 1
        initializedSortOnChange := true }, true)

/-- Constructor options for `initialize` (`options.parent` may itself be
undefined, hence the inner `Option`). -/
structure InitOptions where
  parent : Option JVal
  data : Option JObj
  deriving DecidableEq, Repr

/-- `initialize` (lines 20-37): set up the default state, take `parent`
and seed `state.data` from the options when given, then arm
sort-on-change. (Source name `initialize` is unavailable here.) -/
def initColl (options : Option InitOptions) : Collection :=
  let base : PagState :=
    { data := JObj.empty, currentPage := none, totalPages := none, totalObjects := none }
  let c0 : Collection :=
    match options with
    | none =>
      { state := base, parent := some (JVal.vstr ""), initializedSortOnChange := false,
        hasComparator := false, subscriptions := 0, sortsDone := 0 }
    | some o =>
      { state := { base with data := JObj.extend JObj.empty (o.data.getD JObj.empty) },
        parent := o.parent, initializedSortOnChange := false,
        hasComparator := false, subscriptions := 0, sortsDone := 0 }
  (initSortOnChange c0).1

/-- The pre-send half of `sync` for `method === 'read'` (lines 66-84):
replace `state.data` by a clone of `options.data` with the page key
deleted (or by `{}` when absent, which is also assigned back into
`options.data`), then reset the three pagination fields when the
(original) `options.data` has no page key, or set
`currentPage := options.data.page - 1` when it has one, then re-arm
sort-on-change. Returns the updated collection and the materialized
outgoing `options.data`. -/
def syncReadPre (c : Collection) (data : Option JObj) : Collection × JObj :=
  let p1 : Collection × JObj :=
    match data with
    | some d => ({ c with state := { c.state with data := JObj.erase d "page" } }, d)
    | none => ({ c with state := { c.state with data := JObj.empty } }, JObj.empty)
  let c2 : Collection :=
    match JObj.get p1.2 "page" with
    | none =>
      { p1.1 with state :=
        { p1.1.state with currentPage := none, totalPages := none, totalObjects := none } }
    | some v =>
      { p1.1 with state :=
        { p1.1.state with currentPage := some ((jsToNumber v).sub (JNum.int 1)) } }
  ((initSortOnChange c2).1, p1.2)

/-- What a `sync` call produces before delegating to `Backbone.sync`:
the updated collection, the `options.data` passed on, and whether the
success callback was wrapped (only for reads). -/
structure SyncResult where
  coll : Collection
  sentData : Option JObj
  wrapped : Bool
  deriving DecidableEq, Repr

/-- `sync` (lines 49-103) without the nonce header injection: only
`method === 'read'` touches pagination state and wraps the success
callback; every other method passes `options` through unchanged. -/
def sync (method : String) (c : Collection) (data : Option JObj) : SyncResult :=
  if method = "read" then
    let r := syncReadPre c data
    { coll := r.1, sentData := some r.2, wrapped := true }
  else
    { coll := c, sentData := data, wrapped := false }

/-- The state transition performed by the wrapped success callback
(lines 87-94) on the collection state current when the response arrives:
store the parsed `x-wp-totalpages` / `x-wp-total` headers, then set
`currentPage` to 1 when it was null, else increment it. -/
def successUpdate (c : Collection) (req : Response) : Collection :=
  { c with state :=
    { c.state with
        totalPages := some (parseIntHeader (req.getResponseHeader "x-wp-totalpages"))
        totalObjects := some (parseIntHeader (req.getResponseHeader "x-wp-total"))
        currentPage :=
          some ((c.state.currentPage).elim (JNum.int 1) (fun n => n.add (JNum.int 1))) } }

/-- The full wrapped success callback (lines 86-99): perform
`successUpdate`, then invoke the captured original success callback, if
any, on the original arguments, returning its result. -/
def wrappedSuccess {α R : Type} (success : Option (α → String → Response → R))
    (c : Collection) (payload : α) (textStatus : String) (req : Response) :
    Collection × Option R :=
  (successUpdate c req, success.map (fun f => f payload textStatus req))

/-- `hasMore` (lines 196-204): null (none) when any of the three
pagination fields is null, otherwise `currentPage < totalPages`. -/
def hasMore (c : Collection) : Option Bool :=
  match c.state.totalPages, c.state.totalObjects, c.state.currentPage with
  | some tp, some _, some cp => some (cp.ltb tp)
  | _, _, _ => none

/-- `more` (lines 170-189): merge the stored `state.data` over the
caller's `options.data`; when the merged data still has no page key,
return false (none) unless `hasMore()` is exactly true, else fill in
page 2 (when `currentPage` is null or `<= 1`) or `currentPage + 1`.
Returns the `options.data` passed to `fetch`, or none for `return false`. -/
def more (c : Collection) (data : Option JObj) : Option JObj :=
  let d := JObj.extend (data.getD JObj.empty) c.state.data
  match JObj.get d "page" with
  | some _ => some d
  | none =>
    if hasMore c ≠ some true then none
    else
      let page : JNum :=
        match c.state.currentPage with
        | none => JNum.int 2
        | some cp => if cp.leb (JNum.int 1) then JNum.int 2 else cp.add (JNum.int 1)
      some (JObj.set d "page" page.toJVal)

/-- The property key named by the `orderby` query parameter. -/
def orderKey (c : Collection) : String :=
  ((JObj.get c.state.data "orderby").getD JVal.vnull).toPropKey

/-- Whether the stored `order` query parameter is strictly equal to
the string `"desc"` (line 156). -/
def descOrder (c : Collection) : Bool :=
  (JObj.get c.state.data "order").elim false (fun v => v.strictEq (JVal.vstr "desc"))

/-- `defaultComparator` (lines 137-160): throw when `state.data.orderby`
is falsy; read the `orderby`-named attribute of both models and throw
when either is undefined; compare the two `valueOf()` results with
`===` then `<` (0 / -1 / 1) and negate the result when the `order`
parameter is `"desc"`. Thrown errors are `Except.error`. -/
def defaultComparator (c : Collection) (a b : Model) : Except String Int :=
  if !(JObj.truthyGet c.state.data "orderby") then
    Except.error "Unable to sort collection without orderby query param provided."
  else
    match a.get (orderKey c), b.get (orderKey c) with
    | some av, some bv =>
      match av.valueOf, bv.valueOf with
      | Except.ok av', Except.ok bv' =>
        let result : Int :=
          if av'.strictEq bv' then 0 else if av'.jsLtb bv' then -1 else 1
        Except.ok (if descOrder c then -result else result)
      | Except.error e, _ => Except.error e
      | _, Except.error e => Except.error e
    | _, _ =>
      Except.error ("Model lacks specified orderby field: " ++ orderKey c)

/-- `badHeader req name` states that the response lacks the header
`name` or carries a value whose base-10 parse fails. -/
def badHeader (req : Response) (name : String) : Prop :=
  req.getResponseHeader name = none ∨
    ∃ s, req.getResponseHeader name = some s ∧ parseInt10 s = JNum.nan

/-! ### Concrete fixtures used by witnesses and counterexamples. -/

/-- A freshly constructed collection (`initialize` with no options). -/
def baseColl : Collection :=
  { state := { data := JObj.empty, currentPage := none, totalPages := none,
               totalObjects := none },
    parent := some (JVal.vstr ""), initializedSortOnChange := false,
    hasComparator := false, subscriptions := 0, sortsDone := 0 }

/-- The collection state right after the pre-send half of a page-3 read. -/
def pagedColl : Collection :=
  { baseColl with state := { baseColl.state with currentPage := some (JNum.int 2) } }

/-- A collection that has completed a page-3 read out of 5 pages / 97
objects (the worked example of the spec). -/
def fullColl : Collection :=
  { baseColl with state :=
    { baseColl.state with
        currentPage := some (JNum.int 3)
        totalPages := some (JNum.int 5)
        totalObjects := some (JNum.int 97) } }

/-- A response carrying `x-wp-totalpages: 5` and `x-wp-total: 97`. -/
def resp97 : Response := { headers := [("x-wp-totalpages", "5"), ("x-wp-total", "97")] }

/-- A response missing `x-wp-totalpages` and carrying a non-numeric
`x-wp-total`. -/
def respBad : Response := { headers := [("x-wp-total", "many")] }

/-- A collection whose stored query parameters request ordering. -/
def orderedColl : Collection :=
  { baseColl with state :=
    { baseColl.state with data := [("orderby", JVal.vstr "title")] } }

/-- A collection constructed with caller-supplied initial data
`{page: 3}`: `initialize` copies it unfiltered, so the stored query
parameters carry a page key until the next read sync. -/
def pageSeededColl : Collection :=
  initColl (some ⟨none, some [("page", JVal.vnum 3)]⟩)

/-- A collection whose stored `orderby` parameter is present but holds
the empty string (a falsy value). -/
def emptyOrderbyColl : Collection :=
  { baseColl with state :=
    { baseColl.state with data := [("orderby", JVal.vstr "")] } }

/-! ### Helper lemmas about the object map and the state-preserving
operations. -/

theorem get_erase (o : JObj) (k : String) : JObj.get (JObj.erase o k) k = none := by
  induction o with
  | nil => rfl
  | cons p rest ih =>
    by_cases h : p.1 = k
    · simpa [JObj.erase, h] using ih
    · simpa [JObj.erase, JObj.get, h] using ih

theorem get_set_self (o : JObj) (k : String) (v : JVal) :
    JObj.get (JObj.set o k v) k = some v := by
  induction o with
  | nil => simp [JObj.set, JObj.get]
  | cons p rest ih =>
    by_cases h : p.1 = k
    · simp [JObj.set, JObj.get, h]
    · simpa [JObj.set, JObj.get, h] using ih

theorem get_set_ne (o : JObj) (k' k : String) (v : JVal) (h : k' ≠ k) :
    JObj.get (JObj.set o k' v) k = JObj.get o k := by
  induction o with
  | nil => simp [JObj.set, JObj.get, h]
  | cons p rest ih =>
    by_cases hp : p.1 = k'
    · simp [JObj.set, JObj.get, hp, h]
    · by_cases hk : p.1 = k
      · simp [JObj.set, JObj.get, hp, hk, Ne.symm h]
      · simp [JObj.set, JObj.get, hp, hk, ih]

theorem extend_cons (dst : JObj) (p : String × JVal) (rest : JObj) :
    JObj.extend dst (p :: rest) = JObj.extend (JObj.set dst p.1 p.2) rest := rfl

theorem get_extend_of_none (src dst : JObj) (k : String)
    (h : JObj.get src k = none) :
    JObj.get (JObj.extend dst src) k = JObj.get dst k := by
  induction src generalizing dst with
  | nil => rfl
  | cons p rest ih =>
    have hne : p.1 ≠ k := by
      intro he
      simp [JObj.get, he] at h
    have htl : JObj.get rest k = none := by
      simpa [JObj.get, hne] using h
    rw [extend_cons, ih _ htl, get_set_ne _ _ _ _ hne]

theorem get_eq_none_of_not_mem_keys (o : JObj) (k : String)
    (h : k ∉ o.map Prod.fst) : JObj.get o k = none := by
  induction o with
  | nil => rfl
  | cons p rest ih =>
    simp only [List.map_cons, List.mem_cons] at h
    push_neg at h
    have hne : p.1 ≠ k := Ne.symm h.1
    simp [JObj.get, hne, ih h.2]

theorem get_extend_of_some (src dst : JObj) (k : String) (v : JVal)
    (hnd : (src.map Prod.fst).Nodup)
    (h : JObj.get src k = some v) :
    JObj.get (JObj.extend dst src) k = some v := by
  induction src generalizing dst with
  | nil => simp [JObj.get] at h
  | cons p rest ih =>
    simp only [List.map_cons, List.nodup_cons] at hnd
    by_cases hp : p.1 = k
    · have hv : v = p.2 := by
        simp [JObj.get, hp] at h
        exact h.symm
      have hrest : JObj.get rest k = none := by
        apply get_eq_none_of_not_mem_keys
        rw [← hp]
        exact hnd.1
      rw [extend_cons, get_extend_of_none _ _ _ hrest, hv, ← hp, get_set_self]
    · have htl : JObj.get rest k = some v := by
        simpa [JObj.get, hp] using h
      rw [extend_cons, ih _ hnd.2 htl]

theorem get_extend (src dst : JObj) (k : String)
    (hnd : (src.map Prod.fst).Nodup) :
    JObj.get (JObj.extend dst src) k =
      (JObj.get src k).elim (JObj.get dst k) some := by
  cases h : JObj.get src k with
  | none => simpa [h] using get_extend_of_none src dst k h
  | some v => simpa [h] using get_extend_of_some src dst k v hnd h

theorem initSortOnChange_state (c : Collection) :
    ((initSortOnChange c).1).state = c.state := by
  unfold initSortOnChange
  by_cases h : c.initializedSortOnChange || !(JObj.truthyGet c.state.data "orderby")
  · simp [h]
  · by_cases hc : c.hasComparator <;> simp [h, hc]

theorem sync_read (c : Collection) (data : Option JObj) :
    sync "read" c data =
      { coll := (syncReadPre c data).1, sentData := some (syncReadPre c data).2,
        wrapped := true } := by
  unfold sync
  rw [if_pos rfl]

theorem syncReadPre_data (c : Collection) (data : Option JObj) :
    ((syncReadPre c data).1).state.data =
      JObj.erase (data.getD JObj.empty) "page" := by
  cases data with
  | none =>
    simp [syncReadPre, initSortOnChange_state, JObj.get, JObj.erase, JObj.empty]
  | some d =>
    simp only [syncReadPre, initSortOnChange_state, Option.getD]
    cases h : JObj.get d "page" <;> simp [h]

theorem successUpdate_currentPage (c : Collection) (req : Response) :
    (successUpdate c req).state.currentPage =
      some ((c.state.currentPage).elim (JNum.int 1) (fun n => n.add (JNum.int 1))) := rfl

theorem successUpdate_data (c : Collection) (req : Response) :
    (successUpdate c req).state.data = c.state.data := rfl

theorem parseIntHeader_nan_of_badHeader (req : Response) (name : String)
    (h : badHeader req name) :
    parseIntHeader (req.getResponseHeader name) = JNum.nan := by
  rcases h with h | ⟨s, hs, hp⟩
  · rw [h]; rfl
  · rw [hs]; exact hp

theorem valueOf_ok (v : JVal) (h : v ≠ JVal.vnull) : JVal.valueOf v = Except.ok v := by
  cases v <;> simp_all [JVal.valueOf]

theorem syncReadPre_currentPage_of_page (c : Collection) (d : JObj) (v : JVal)
    (hp : JObj.get d "page" = some v) :
    ((syncReadPre c (some d)).1).state.currentPage =
      some ((jsToNumber v).sub (JNum.int 1)) := by
  simp only [syncReadPre, initSortOnChange_state, hp]

theorem syncReadPre_reset (c : Collection) (data : Option JObj)
    (h : ∀ d, data = some d → JObj.get d "page" = none) :
    ((syncReadPre c data).1).state.currentPage = none ∧
    ((syncReadPre c data).1).state.totalPages = none ∧
    ((syncReadPre c data).1).state.totalObjects = none := by
  cases data with
  | none => simp [syncReadPre, initSortOnChange_state, JObj.get, JObj.empty]
  | some d => simp [syncReadPre, initSortOnChange_state, h d rfl]

theorem hasMore_true_elim (c : Collection) (h : hasMore c = some true) :
    ∃ k t x, c.state.currentPage = some (JNum.int k) ∧
      c.state.totalPages = some (JNum.int t) ∧
      c.state.totalObjects = some x ∧ k < t := by
  obtain ⟨⟨dt, cp, tp, tob⟩, par, ini, hc, subs, so⟩ := c
  rcases cp with _ | cp <;> rcases tp with _ | tp <;> rcases tob with _ | tob <;>
    simp only [hasMore] at h <;> try exact Option.noConfusion h
  rcases cp with _ | k <;> rcases tp with _ | t <;>
    simp only [JNum.ltb] at h <;> try exact absurd h (by decide)
  exact ⟨k, t, tob, rfl, rfl, rfl, by simpa using h⟩

/-! ### The claims. -/

/-- C1: for a read sync whose `options.data` carries `page = p`, the
pagination state's `currentPage` equals `p - 1` after the pre-send
processing; and when the wrapped success callback later runs on a state
whose `currentPage` is `k`, with response headers parsing to the numbers
`tpages` / `tobjects`, the state afterwards has `currentPage = k + 1`,
`totalPages = tpages` and `totalObjects = tobjects`. -/
theorem C1_paged_read_pagination (c : Collection) (d : JObj) (p : Int)
    (hp : JObj.get d "page" = some (JVal.vnum p))
    (c' : Collection) (k : Int) (hk : c'.state.currentPage = some (JNum.int k))
    (req : Response) (tpages tobjects : Int)
    (h1 : parseIntHeader (req.getResponseHeader "x-wp-totalpages") = JNum.int tpages)
    (h2 : parseIntHeader (req.getResponseHeader "x-wp-total") = JNum.int tobjects) :
    ((sync "read" c (some d)).coll).state.currentPage = some (JNum.int (p - 1)) ∧
    (successUpdate c' req).state.currentPage = some (JNum.int (k + 1)) ∧
    (successUpdate c' req).state.totalPages = some (JNum.int tpages) ∧
    (successUpdate c' req).state.totalObjects = some (JNum.int tobjects) := by
  refine ⟨?_, ?_, ?_, ?_⟩
  · rw [sync_read]
    have h := syncReadPre_currentPage_of_page c d (JVal.vnum p) hp
    simpa [jsToNumber, JNum.sub] using h
  · rw [successUpdate_currentPage, hk]
    simp [JNum.add]
  · show some (parseIntHeader (req.getResponseHeader "x-wp-totalpages")) = _
    rw [h1]
  · show some (parseIntHeader (req.getResponseHeader "x-wp-total")) = _
    rw [h2]

/-- C1 witness: a page-3 read over `baseColl` leaves `currentPage = 2`;
a success response with totals 5/97 applied to that state yields
`currentPage = 3`, `totalPages = 5`, `totalObjects = 97`. -/
theorem C1_paged_read_pagination_witness :
    ((sync "read" baseColl (some [("page", JVal.vnum 3)])).coll).state.currentPage =
      some (JNum.int 2) ∧
    (successUpdate pagedColl resp97).state.currentPage = some (JNum.int 3) ∧
    (successUpdate pagedColl resp97).state.totalPages = some (JNum.int 5) ∧
    (successUpdate pagedColl resp97).state.totalObjects = some (JNum.int 97) := by
  have h := C1_paged_read_pagination baseColl [("page", JVal.vnum 3)] 3 (by decide)
    pagedColl 2 (by decide) resp97 5 97 (by decide) (by decide)
  simpa using h

/-- C2: a read sync whose `options.data` (caller-supplied or defaulted
to `{}`) has no page key resets `currentPage`, `totalPages` and
`totalObjects` to null before the request goes out, and the wrapped
success callback run on the resulting state sets `currentPage = 1`. -/
theorem C2_unpaged_read_reset (c : Collection) (data : Option JObj)
    (h : ∀ d, data = some d → JObj.get d "page" = none) (req : Response) :
    ((sync "read" c data).coll).state.currentPage = none ∧
    ((sync "read" c data).coll).state.totalPages = none ∧
    ((sync "read" c data).coll).state.totalObjects = none ∧
    (successUpdate (sync "read" c data).coll req).state.currentPage =
      some (JNum.int 1) := by
  have hr := syncReadPre_reset c data h
  rw [sync_read]
  have h4 : (successUpdate ((syncReadPre c data).1) req).state.currentPage =
      some (JNum.int 1) := by
    rw [successUpdate_currentPage, hr.1]
    rfl
  exact ⟨hr.1, hr.2.1, hr.2.2, h4⟩

/-- C2 witness: a read with no data over `fullColl` resets all three
fields, and the success callback then produces `currentPage = 1`. -/
theorem C2_unpaged_read_reset_witness :
    ((sync "read" fullColl none).coll).state.currentPage = none ∧
    ((sync "read" fullColl none).coll).state.totalPages = none ∧
    ((sync "read" fullColl none).coll).state.totalObjects = none ∧
    (successUpdate (sync "read" fullColl none).coll resp97).state.currentPage =
      some (JNum.int 1) :=
  C2_unpaged_read_reset fullColl none (fun d hd => by cases hd) resp97

/-- C3: `hasMore` returns null exactly when one of `currentPage`,
`totalPages`, `totalObjects` is null; when all three are set it returns
the boolean `currentPage < totalPages` (JS `<` on the stored numbers). -/
theorem C3_hasMore_trichotomy (c : Collection) :
    (hasMore c = none ↔
      (c.state.currentPage = none ∨ c.state.totalPages = none ∨
        c.state.totalObjects = none)) ∧
    (∀ cp tp tob, c.state.currentPage = some cp → c.state.totalPages = some tp →
      c.state.totalObjects = some tob → hasMore c = some (cp.ltb tp)) := by
  obtain ⟨⟨dt, cp, tp, tob⟩, par, ini, hc, subs, so⟩ := c
  constructor
  · cases cp <;> cases tp <;> cases tob <;> simp [hasMore]
  · intro cp' tp' tob' h1 h2 h3
    cases cp <;> cases tp <;> cases tob <;> simp_all [hasMore]

/-- C3 witness: on the worked example (page 3 of 5) `hasMore` is true,
and on a fresh collection it is null. -/
theorem C3_hasMore_trichotomy_witness :
    hasMore fullColl = some true ∧ hasMore baseColl = none := by
  have h1 := (C3_hasMore_trichotomy fullColl).2 (JNum.int 3) (JNum.int 5)
    (JNum.int 97) (by decide) (by decide) (by decide)
  have h2 := (C3_hasMore_trichotomy baseColl).1
  exact ⟨by simpa [JNum.ltb] using h1, h2.mpr (Or.inl (by decide))⟩

/-- C4 counterexample: on a collection whose `currentPage` is unset,
with no page key in caller data, merged data or stored data, `more`
returns false (none) without delegating any fetch — the claim's
"the fetch it delegates to is issued with data.page = 2" is false
because no fetch is delegated at all. -/
theorem C4_more_unset_counterexample : more baseColl none = none := by decide

/-- C4 amended: when `more` (with no page key in the merged data) does
delegate a fetch, `currentPage` is necessarily a set integer `k`, and
the delegated data carries `page = 2` when `k ≤ 1` and `page = k + 1`
otherwise; with `currentPage` unset no fetch is delegated. -/
theorem C4_more_next_page (c : Collection) (data : Option JObj) (sent : JObj)
    (hnp : JObj.get (JObj.extend (data.getD JObj.empty) c.state.data) "page" = none)
    (h : more c data = some sent) :
    ∃ k : Int, c.state.currentPage = some (JNum.int k) ∧
      JObj.get sent "page" = some (JVal.vnum (if k ≤ 1 then 2 else k + 1)) := by
  simp only [more, hnp] at h
  by_cases hm : hasMore c = some true
  · rw [if_neg (fun hne => hne hm)] at h
    obtain ⟨k, t, x, hcp, htp, hto, hkt⟩ := hasMore_true_elim c hm
    rw [hcp] at h
    injection h with h
    subst h
    refine ⟨k, hcp, ?_⟩
    rw [get_set_self]
    by_cases hk : k ≤ 1 <;> simp [JNum.leb, JNum.toJVal, JNum.add, hk]
  · rw [if_pos hm] at h
    exact absurd h (by simp)

/-- C4 witness: on the worked example (page 3 of 5 fetched), `more`
delegates a fetch whose data carries `page = 4`. -/
theorem C4_more_next_page_witness :
    more fullColl none = some [("page", JVal.vnum 4)] ∧
    (∃ k : Int, fullColl.state.currentPage = some (JNum.int k) ∧
      JObj.get [("page", JVal.vnum 4)] "page" =
        some (JVal.vnum (if k ≤ 1 then 2 else k + 1))) :=
  ⟨by decide, C4_more_next_page fullColl none [("page", JVal.vnum 4)]
    (by decide) (by decide)⟩

/-- C5: when `currentPage` is unset and the merged data carries no page
key, `hasMore` is null (indeterminate) and `more` returns false without
delegating a fetch, so the "default to page 2" branch is unreachable
for an unset `currentPage`. -/
theorem C5_more_unset_no_fetch (c : Collection) (data : Option JObj)
    (hcp : c.state.currentPage = none)
    (hnp : JObj.get (JObj.extend (data.getD JObj.empty) c.state.data) "page" = none) :
    hasMore c = none ∧ more c data = none := by
  have hm : hasMore c = none := by
    rcases htp : c.state.totalPages with _ | tp <;>
      rcases hto : c.state.totalObjects with _ | tob <;>
        simp [hasMore, hcp, htp, hto]
  refine ⟨hm, ?_⟩
  simp only [more, hnp]
  rw [if_pos (by simp [hm])]

/-- C5 witness: a fresh collection has indeterminate `hasMore` and
`more` refuses to fetch. -/
theorem C5_more_unset_no_fetch_witness :
    hasMore baseColl = none ∧ more baseColl none = none :=
  C5_more_unset_no_fetch baseColl none (by decide) (by decide)

/-- C6 counterexample: constructing a collection with initial data
`{page: 3}` stores the page key into the pagination state's
query-parameter map, violating the claimed invariant at a reachable
point (construction with caller-supplied initial data). -/
theorem C6_initial_data_counterexample :
    JObj.get (initColl (some ⟨none, some [("page", JVal.vnum 3)]⟩)).state.data "page" =
      some (JVal.vnum 3) := by decide

/-- C6 amended: every read sync strips the page key from the stored
query parameters, and the wrapped success handler never touches them;
only construction with caller-supplied initial data can put a page key
into the stored state, because `initialize` copies the caller's data
unfiltered. -/
theorem C6_read_strips_page (c : Collection) (data : Option JObj) (req : Response) :
    JObj.get ((sync "read" c data).coll).state.data "page" = none ∧
    (successUpdate c req).state.data = c.state.data := by
  constructor
  · rw [sync_read]
    show JObj.get ((syncReadPre c data).1).state.data "page" = none
    rw [syncReadPre_data]
    exact get_erase _ _
  · exact successUpdate_data c req

/-- C6 amended witness: a paged read over the worked example leaves no
page key in the stored parameters. -/
theorem C6_read_strips_page_witness :
    JObj.get ((sync "read" fullColl
      (some [("page", JVal.vnum 3), ("orderby", JVal.vstr "title")])).coll).state.data
      "page" = none ∧
    (successUpdate fullColl resp97).state.data = fullColl.state.data :=
  C6_read_strips_page fullColl
    (some [("page", JVal.vnum 3), ("orderby", JVal.vstr "title")]) resp97

/-- C7 counterexample: on a collection constructed with initial data
`{page: 3}` (a reachable state, since `initialize` copies caller data
unfiltered), `more` called with caller data `{page: 9}` delegates a
fetch whose data carries the stored `page = 3` — the caller-supplied
page key does not survive the merge, because `_.extend` applies the
stored values last with no exception for the page key. -/
theorem C7_more_merge_counterexample :
    JObj.get [("page", JVal.vnum 9)] "page" = some (JVal.vnum 9) ∧
    more pageSeededColl (some [("page", JVal.vnum 9)]) =
      some [("page", JVal.vnum 3)] ∧
    JObj.get [("page", JVal.vnum 3)] "page" ≠ some (JVal.vnum 9) := by decide

/-- C7 amended: when the stored query parameters contain no page key —
which every read sync guarantees, though construction-seeded initial
data may violate it — a fetch delegated by `more` with caller-supplied
data maps every non-page key to the stored value when the stored query
parameters have that key and to the caller's value otherwise (stored
values overwrite the caller's), while a caller-supplied page key
survives the merge. When the stored parameters do carry a page key, it
overwrites the caller's page like any other key. -/
theorem C7_more_merge (c : Collection) (d : JObj) (sent : JObj)
    (hnd : (c.state.data.map Prod.fst).Nodup)
    (hpg : JObj.get c.state.data "page" = none)
    (h : more c (some d) = some sent) :
    (∀ k, k ≠ "page" →
      JObj.get sent k = (JObj.get c.state.data k).elim (JObj.get d k) some) ∧
    (∀ v, JObj.get d "page" = some v → JObj.get sent "page" = some v) := by
  have hmerge : ∀ k, JObj.get (JObj.extend d c.state.data) k =
      (JObj.get c.state.data k).elim (JObj.get d k) some :=
    fun k => get_extend c.state.data d k hnd
  have hmp : JObj.get (JObj.extend d c.state.data) "page" = JObj.get d "page" := by
    rw [hmerge, hpg]
    rfl
  simp only [more, Option.getD_some] at h
  cases hdp : JObj.get (JObj.extend d c.state.data) "page" with
  | some v0 =>
    simp only [hdp] at h
    injection h with h
    subst h
    exact ⟨fun k _ => hmerge k, fun v hv => by rw [hmp, hv]⟩
  | none =>
    simp only [hdp] at h
    by_cases hm : hasMore c ≠ some true
    · rw [if_pos hm] at h
      exact absurd h (by simp)
    · rw [if_neg hm] at h
      injection h with h
      subst h
      constructor
      · intro k hk
        rw [get_set_ne _ _ _ _ (Ne.symm hk), hmerge]
      · intro v hv
        rw [hmp, hv] at hdp
        exact Option.noConfusion hdp

/-- C7 amended witness: merging caller data `{page: 9, orderby: "date"}`
with page-free stored `{orderby: "title"}` keeps the caller's page and
lets the stored orderby overwrite the caller's. -/
theorem C7_more_merge_witness :
    (∀ k, k ≠ "page" →
      JObj.get [("page", JVal.vnum 9), ("orderby", JVal.vstr "title")] k =
        (JObj.get orderedColl.state.data k).elim
          (JObj.get [("page", JVal.vnum 9), ("orderby", JVal.vstr "date")] k) some) ∧
    (∀ v, JObj.get [("page", JVal.vnum 9), ("orderby", JVal.vstr "date")] "page" =
        some v →
      JObj.get [("page", JVal.vnum 9), ("orderby", JVal.vstr "title")] "page" =
        some v) :=
  C7_more_merge orderedColl [("page", JVal.vnum 9), ("orderby", JVal.vstr "date")]
    [("page", JVal.vnum 9), ("orderby", JVal.vstr "title")]
    (by decide) (by decide) (by decide)

theorem initSortOnChange_noop (c : Collection)
    (h : c.initializedSortOnChange = true ∨
      JObj.truthyGet c.state.data "orderby" = false) :
    initSortOnChange c = (c, false) := by
  rcases h with h | h <;> simp [initSortOnChange, h]

/-- C8: sort-on-change activation is a per-instance idempotent
operation: when the collection is already activated or the stored query
parameters have no (truthy) orderby key, the call changes nothing — no
comparator installation, no event subscription, no sort — and returns
false; and after a successful activation a second call is such a
no-op. -/
theorem C8_initSortOnChange_idempotent (c : Collection) :
    ((c.initializedSortOnChange = true ∨
        JObj.truthyGet c.state.data "orderby" = false) →
      initSortOnChange c = (c, false)) ∧
    ((initSortOnChange c).2 = true →
      initSortOnChange (initSortOnChange c).1 = ((initSortOnChange c).1, false)) := by
  constructor
  · exact initSortOnChange_noop c
  · intro h
    have hinit : ((initSortOnChange c).1).initializedSortOnChange = true := by
      by_cases hcond :
          (c.initializedSortOnChange || !(JObj.truthyGet c.state.data "orderby")) = true
      · simp [initSortOnChange, hcond] at h
      · by_cases hc2 : c.hasComparator <;> simp [initSortOnChange, hcond, hc2]
    exact initSortOnChange_noop _ (Or.inl hinit)

/-- C8 witness: activation on a collection without orderby data is a
refused no-op, and re-activating an activated collection is a no-op. -/
theorem C8_initSortOnChange_idempotent_witness :
    initSortOnChange baseColl = (baseColl, false) ∧
    initSortOnChange (initSortOnChange orderedColl).1 =
      ((initSortOnChange orderedColl).1, false) :=
  ⟨(C8_initSortOnChange_idempotent baseColl).1 (Or.inr (by decide)),
   (C8_initSortOnChange_idempotent orderedColl).2 (by decide)⟩

/-- C9 counterexample: with the orderby parameter present but equal to
the empty string and both members carrying the ""-named attribute, the
claim's "otherwise" clause demands the numeric result 0, but the
comparator throws, because the code tests truthiness rather than
presence of the parameter. -/
theorem C9_comparator_counterexample :
    defaultComparator emptyOrderbyColl ⟨[("", JVal.vnum 1)]⟩ ⟨[("", JVal.vnum 1)]⟩ =
      Except.error "Unable to sort collection without orderby query param provided." :=
  rfl

/-- C9 amended: the comparator throws when the stored orderby parameter
is unset *or falsy*, or when either member lacks the orderby-named
attribute (or has a null value there, whose `valueOf` throws);
otherwise it returns the natural-ordering comparison — 0 when the
values are strictly equal, -1 when a's value precedes b's, +1
otherwise — with the sign inverted exactly when the stored order
parameter is "desc". -/
theorem C9_comparator_behavior (c : Collection) (a b : Model) :
    (JObj.truthyGet c.state.data "orderby" = false →
      defaultComparator c a b =
        Except.error "Unable to sort collection without orderby query param provided.") ∧
    (JObj.truthyGet c.state.data "orderby" = true →
      (Model.get a (orderKey c) = none ∨ Model.get b (orderKey c) = none) →
      defaultComparator c a b =
        Except.error ("Model lacks specified orderby field: " ++ orderKey c)) ∧
    (∀ av bv, JObj.truthyGet c.state.data "orderby" = true →
      Model.get a (orderKey c) = some av → Model.get b (orderKey c) = some bv →
      av ≠ JVal.vnull → bv ≠ JVal.vnull →
      defaultComparator c a b =
        Except.ok ((if descOrder c then -1 else 1) *
          (if av.strictEq bv then 0 else if av.jsLtb bv then -1 else 1))) := by
  refine ⟨?_, ?_, ?_⟩
  · intro h
    simp [defaultComparator, h]
  · intro h hab
    rcases hab with hab | hab
    · cases hgb : Model.get b (orderKey c) <;>
        simp [defaultComparator, h, hab, hgb]
    · cases hga : Model.get a (orderKey c) <;>
        simp [defaultComparator, h, hab, hga]
  · intro av bv h ha hb hna hnb
    simp only [defaultComparator, h, ha, hb, valueOf_ok av hna, valueOf_ok bv hnb,
      Bool.not_true, Bool.false_eq_true, if_false]
    by_cases hd : descOrder c <;> simp [hd, neg_one_mul] <;> split_ifs <;> norm_num

/-- C9 amended witness: sorting by "title" ascending compares
"apple" before "banana" as -1. -/
theorem C9_comparator_behavior_witness :
    defaultComparator orderedColl ⟨[("title", JVal.vstr "apple")]⟩
      ⟨[("title", JVal.vstr "banana")]⟩ = Except.ok (-1) := by
  have h := (C9_comparator_behavior orderedColl ⟨[("title", JVal.vstr "apple")]⟩
    ⟨[("title", JVal.vstr "banana")]⟩).2.2 (JVal.vstr "apple") (JVal.vstr "banana")
    (by decide) (by decide) (by decide) (by decide) (by decide)
  simpa [descOrder, orderedColl, baseColl, JObj.get, JVal.strictEq, JVal.jsLtb] using h

/-- C10: when the response lacks `x-wp-totalpages` or `x-wp-total`, or
carries a non-numeric value in either, the wrapped success handler
stores the NaN sentinel in the corresponding total field(s), raises no
error, still updates `currentPage` (1 when it was null, incremented by
one otherwise) and still invokes the caller's original success callback
on the original arguments. -/
theorem C10_bad_headers_degrade (α R : Type) (f : α → String → Response → R)
    (c : Collection) (payload : α) (textStatus : String) (req : Response)
    (hbad : badHeader req "x-wp-totalpages" ∨ badHeader req "x-wp-total") :
    (badHeader req "x-wp-totalpages" →
      (wrappedSuccess (some f) c payload textStatus req).1.state.totalPages =
        some JNum.nan) ∧
    (badHeader req "x-wp-total" →
      (wrappedSuccess (some f) c payload textStatus req).1.state.totalObjects =
        some JNum.nan) ∧
    (wrappedSuccess (some f) c payload textStatus req).1.state.currentPage =
      some ((c.state.currentPage).elim (JNum.int 1) (fun n => n.add (JNum.int 1))) ∧
    (wrappedSuccess (some f) c payload textStatus req).2 =
      some (f payload textStatus req) := by
  refine ⟨?_, ?_, rfl, rfl⟩
  · intro hb
    show some (parseIntHeader (req.getResponseHeader "x-wp-totalpages")) = some JNum.nan
    rw [parseIntHeader_nan_of_badHeader _ _ hb]
  · intro hb
    show some (parseIntHeader (req.getResponseHeader "x-wp-total")) = some JNum.nan
    rw [parseIntHeader_nan_of_badHeader _ _ hb]

/-- C10 witness: a response with no `x-wp-totalpages` header and a
non-numeric `x-wp-total` stores NaN in both totals, advances
`currentPage` from 3 to 4 and still calls the original callback. -/
theorem C10_bad_headers_degrade_witness :
    (wrappedSuccess (some (fun (n : Nat) (_ : String) (_ : Response) => n))
      fullColl 7 "success" respBad).1.state.totalPages = some JNum.nan ∧
    (wrappedSuccess (some (fun (n : Nat) (_ : String) (_ : Response) => n))
      fullColl 7 "success" respBad).1.state.totalObjects = some JNum.nan ∧
    (wrappedSuccess (some (fun (n : Nat) (_ : String) (_ : Response) => n))
      fullColl 7 "success" respBad).1.state.currentPage = some (JNum.int 4) ∧
    (wrappedSuccess (some (fun (n : Nat) (_ : String) (_ : Response) => n))
      fullColl 7 "success" respBad).2 = some 7 := by
  have h := C10_bad_headers_degrade Nat Nat (fun n _ _ => n) fullColl 7 "success"
    respBad (Or.inl (Or.inl (by decide)))
  refine ⟨h.1 (Or.inl (by decide)),
    h.2.1 (Or.inr ⟨"many", by decide, by decide⟩), ?_, h.2.2.2⟩
  have h3 := h.2.2.1
  simpa [fullColl, baseColl, JNum.add] using h3

end WPApiCollection
